import Mathlib

/-!
Shallow embedding of the autoregressive EV-forecast engine of
`prototype_code.py`.  Real-valued quantities are modelled over `ℚ`,
calendar months over `ℤ` as the numeric month index `year * 12 + month`
used by the script (adding one calendar month adds 1 to this index).
-/

namespace EvForecast

/-- `np.cumsum` with a running accumulator (`cumsumFrom 0` is `np.cumsum`). -/
def cumsumFrom (acc : ℚ) : List ℚ → List ℚ
  | [] => []
  | x :: xs => (acc + x) :: cumsumFrom (acc + x) xs

/-- `list(np.cumsum(l))` (line 308 / 434). -/
def cumsum (l : List ℚ) : List ℚ := cumsumFrom 0 l

/-- Python slice `l[-n:]`: the last `n` elements (all of `l` when it is shorter). -/
def takeLast (n : ℕ) (l : List ℚ) : List ℚ := l.drop (l.length - n)

/-- Python negative indexing `l[-k]`.  In Python this raises `IndexError` when
`k > len(l)`; every use in this development is on a buffer of length ≥ 3
(`k ≤ 3`), matching the code paths actually exercised, so the default value
is never consulted in any theorem below. -/
def negIdx (l : List ℚ) (k : ℕ) : ℚ := l.getD (l.length - k) 0

/-- The feature row built at lines 336–346 / 448–458, in the order of the
`features` list (lines 171–181). -/
structure FeatureVector where
  months_since_start : ℤ
  county_encoded : ℤ
  ev_total_lag1 : ℚ
  ev_total_lag2 : ℚ
  ev_total_lag3 : ℚ
  ev_total_roll_mean_3 : ℚ
  ev_total_pct_change_1 : ℚ
  ev_total_pct_change_3 : ℚ
  ev_growth_slope : ℚ
deriving DecidableEq

/-- The fitted regression model, an opaque deterministic function
`predict : feature vector → scalar` (line 350 / 460). -/
abbrev Model : Type := FeatureVector → ℚ

/-- Slope coefficient of `np.polyfit(range(len(y)), y, 1)`: the ordinary
least-squares slope in the closed form
`(n·Σxy − Σx·Σy) / (n·Σx² − (Σx)²)` with `x = 0, 1, …, n−1`. -/
def polyfitSlope (y : List ℚ) : ℚ :=
  let n : ℚ := y.length
  let xs : List ℚ := (List.range y.length).map (fun i => (i : ℚ))
  let sx := xs.sum
  let sy := y.sum
  let sxy := ((xs.zip y).map (fun p => p.1 * p.2)).sum
  let sxx := (xs.map (fun x => x * x)).sum
  (n * sxy - sx * sy) / (n * sxx - sx * sx)

/-- Modelled from the spec: the "ordinary least-squares slope of the 6 buffered
cumulative values regressed against the index sequence 0..5", written in the
textbook covariance-over-variance form `Σ(xᵢ−x̄)(yᵢ−ȳ) / Σ(xᵢ−x̄)²`.  Used
only to compare the code's `np.polyfit`-based slope against the spec's words. -/
def olsSlopeSpec (y : List ℚ) : ℚ :=
  let n : ℚ := y.length
  let xs : List ℚ := (List.range y.length).map (fun i => (i : ℚ))
  let xbar := xs.sum / n
  let ybar := y.sum / n
  let num := ((xs.zip y).map (fun p => (p.1 - xbar) * (p.2 - ybar))).sum
  let den := (xs.map (fun x => (x - xbar) * (x - xbar))).sum
  num / den

/-- Lines 332–333 / 443–444: `recent_cumulative = cumulative_ev[-6:]`, then the
polyfit slope if exactly 6 points are present, else 0. -/
def growthSlope (cumulative_ev : List ℚ) : ℚ :=
  let recent := takeLast 6 cumulative_ev
  if recent.length = 6 then polyfitSlope recent else 0

/-- Lines 326–346 / 439–458: derive the feature row from the rolling buffers. -/
def deriveFeatures (historical_ev cumulative_ev : List ℚ)
    (months_since_start county_encoded : ℤ) : FeatureVector :=
  let lag1 := negIdx historical_ev 1
  let lag2 := negIdx historical_ev 2
  let lag3 := negIdx historical_ev 3
  { months_since_start := months_since_start
    county_encoded := county_encoded
    ev_total_lag1 := lag1
    ev_total_lag2 := lag2
    ev_total_lag3 := lag3
    ev_total_roll_mean_3 := (lag1 + lag2 + lag3) / 3
    ev_total_pct_change_1 := if lag2 ≠ 0 then (lag1 - lag2) / lag2 else 0
    ev_total_pct_change_3 := if lag3 ≠ 0 then (lag1 - lag3) / lag3 else 0
    ev_growth_slope := growthSlope cumulative_ev }

/-- Rolling state of one county's forecast loop: the two trailing buffers,
the running `months_since_start` counter, and the numeric month index of the
latest (historical or already-forecast) month. -/
structure CountyState where
  historical_ev : List ℚ
  cumulative_ev : List ℚ
  months_since_start : ℤ
  date : ℤ
deriving DecidableEq

/-- One emitted forecast row (lines 362–367 / 463–469). -/
structure ForecastRecord where
  date : ℤ
  predicted_value : ℚ
  months_since_start : ℤ
deriving DecidableEq

/-- Lines 354–356 (and 358–360): `l.append(v)` followed by `l.pop(0)` when the
length exceeds 6. -/
def pushWindow (l : List ℚ) (v : ℚ) : List ℚ :=
  let l2 := l ++ [v]
  if l2.length > 6 then l2.tail else l2

/-- Everything one loop iteration produces: the state it started from, the
derived features, the emitted record, and the advanced state. -/
structure StepLog where
  pre : CountyState
  features : FeatureVector
  record : ForecastRecord
  post : CountyState
deriving DecidableEq

/-- One iteration of the forecast loop (lines 320–369 / 437–475):
increment `months_since_start`, derive features, predict, push the prediction
onto `historical_ev` and `cumulative_ev[-1] + pred` onto `cumulative_ev`,
emit the record dated one month after the current latest month. -/
def forecastStep (model : Model) (county_encoded : ℤ) (s : CountyState) : StepLog :=
  let months := s.months_since_start + 1
  let fv := deriveFeatures s.historical_ev s.cumulative_ev months county_encoded
  let pred := model fv
  { pre := s
    features := fv
    record := { date := s.date + 1, predicted_value := pred, months_since_start := months }
    post :=
      { historical_ev := pushWindow s.historical_ev pred
        cumulative_ev := pushWindow s.cumulative_ev (s.cumulative_ev.getLastD 0 + pred)
        months_since_start := months
        date := s.date + 1 } }

/-- The per-iteration log of running the loop for `n` steps. -/
def trace (model : Model) (county_encoded : ℤ) : ℕ → CountyState → List StepLog
  | 0, _ => []
  | n + 1, s =>
    let e := forecastStep model county_encoded s
    e :: trace model county_encoded n e.post

/-- Run the loop for `n` steps, returning the final state and the emitted
forecast records in order. -/
def runSteps (model : Model) (county_encoded : ℤ) :
    ℕ → CountyState → CountyState × List ForecastRecord
  | 0, s => (s, [])
  | n + 1, s =>
    let e := forecastStep model county_encoded s
    let r := runSteps model county_encoded n e.post
    (r.1, e.record :: r.2)

/-- Lines 307–310 / 433–434: `historical_ev = values[-6:]`,
`cumulative_ev = list(np.cumsum(historical_ev))`, with the initial
`months_since_start` and latest historical month supplied by the caller. -/
def initState (histValues : List ℚ) (months0 date0 : ℤ) : CountyState :=
  let h := takeLast 6 histValues
  { historical_ev := h
    cumulative_ev := cumsum h
    months_since_start := months0
    date := date0 }

/-- One historical row of a county (`Date`, EV total, `months_since_start`). -/
structure HistPoint where
  date : ℤ
  value : ℚ
  months_since_start : ℤ
deriving DecidableEq

/-- The `Source` column. -/
inductive SourceTag where
  | Historical
  | Forecast
deriving DecidableEq

/-- One row of the combined (historical + forecast) frame before the
cumulative column is added. -/
structure CombinedRow where
  date : ℤ
  value : ℚ
  source : SourceTag
deriving DecidableEq

/-- One row of the combined frame after `Cumulative EVs` is added. -/
structure CombinedRowC where
  date : ℤ
  value : ℚ
  source : SourceTag
  cumulative : ℚ
deriving DecidableEq

/-- `pd.concat([historical, forecast_df])` (line 377 / 477). -/
def toRows (hist : List HistPoint) (recs : List ForecastRecord) : List CombinedRow :=
  hist.map (fun p => { date := p.date, value := p.value, source := SourceTag.Historical })
    ++ recs.map (fun r =>
        { date := r.date, value := r.predicted_value, source := SourceTag.Forecast })

/-- `combined.sort_values("Date")` (line 396 / 478). -/
def sortByDate (rows : List CombinedRow) : List CombinedRow :=
  rows.mergeSort (fun a b => a.date ≤ b.date)

/-- `combined["Cumulative EVs"] = combined[...].cumsum()` (line 399 / 479):
attach the running prefix sum of the value column. -/
def addCumulative (acc : ℚ) : List CombinedRow → List CombinedRowC
  | [] => []
  | r :: rs =>
    { date := r.date, value := r.value, source := r.source, cumulative := acc + r.value }
      :: addCumulative (acc + r.value) rs

/-- Lines 377/396/399 (and 477–479): concatenate, sort by date, add the
cumulative column. -/
def assemble (hist : List HistPoint) (recs : List ForecastRecord) : List CombinedRowC :=
  addCumulative 0 (sortByDate (toRows hist recs))

/-- Maximum of a list of month indices (`column.max()`); the empty case is
never reached because every caller first skips counties with no rows. -/
def listMaxD : List ℤ → ℤ
  | [] => 0
  | x :: xs => xs.foldl max x

/-- `county_df['months_since_start'].max()` (line 310 / 429). -/
def maxMonths (rows : List HistPoint) : ℤ :=
  listMaxD (rows.map (fun p => p.months_since_start))

/-- `historical['Date'].max()` (line 462 / 536) as a numeric month index. -/
def maxDate (rows : List HistPoint) : ℤ :=
  listMaxD (rows.map (fun p => p.date))

/-- One requested entity of a batch run: its encoded identifier and its
historical rows sorted by date. -/
structure CountyInput where
  code : ℤ
  rows : List HistPoint
deriving DecidableEq

/-- The full per-county pipeline of the batch loop: initialize the window
from the last ≤6 values, run `horizon` steps, assemble the combined series. -/
def combinedFor (model : Model) (horizon : ℕ) (e : CountyInput) : List CombinedRowC :=
  let s0 := initState (e.rows.map (fun p => p.value)) (maxMonths e.rows) (maxDate e.rows)
  assemble e.rows (runSteps model e.code horizon s0).2

/-- The batch loop over counties (lines 423–559).  Each iteration first runs
the `try` block: counties with fewer than 6 rows (including none at all) are
skipped by a bare `continue` with nothing recorded (lines 427–428); otherwise
the combined series is appended to `all_combined` (line 480).  The loop body
then falls through to a duplicated copy of the same computation (lines
485–559), which repeats the identical skip test and, on success, appends an
identical combined series a second time (line 559). -/
def runMany (model : Model) (horizon : ℕ) : List CountyInput → List (ℤ × List CombinedRowC)
  | [] => []
  | e :: es =>
    if e.rows.length < 6 then runMany model horizon es
    else
      (e.code,
        assemble e.rows
          (runSteps model e.code horizon
            (initState (e.rows.map (fun p => p.value)) (maxMonths e.rows) (maxDate e.rows))).2)
        :: (e.code,
            assemble e.rows
              (runSteps model e.code horizon
                (initState (e.rows.map (fun p => p.value))
                  (maxMonths e.rows) (maxDate e.rows))).2)
        :: runMany model horizon es

end EvForecast

namespace EvForecast

theorem cumsumFrom_length (acc : ℚ) (l : List ℚ) : (cumsumFrom acc l).length = l.length := by
  induction l generalizing acc with
  | nil => simp [cumsumFrom]
  | cons x xs ih => simp [cumsumFrom, ih]

theorem cumsum_length (l : List ℚ) : (cumsum l).length = l.length :=
  cumsumFrom_length 0 l

theorem takeLast_length (n : ℕ) (l : List ℚ) : (takeLast n l).length = min n l.length := by
  unfold takeLast
  simp only [List.length_drop]
  omega

theorem takeLast_of_le {n : ℕ} {l : List ℚ} (h : l.length ≤ n) : takeLast n l = l := by
  unfold takeLast
  have h0 : l.length - n = 0 := by omega
  simp [h0]

theorem pushWindow_length {l : List ℚ} (v : ℚ) (h : l.length ≤ 6) :
    (pushWindow l v).length = min (l.length + 1) 6 := by
  by_cases h7 : l.length + 1 > 6 <;>
    simp [pushWindow, h7] <;>
    omega

theorem pushWindow_length_le {l : List ℚ} (v : ℚ) (h : l.length ≤ 6) :
    (pushWindow l v).length ≤ 6 := by
  rw [pushWindow_length v h]
  omega

theorem pushWindow_eq_of_six {l : List ℚ} (v : ℚ) (h : l.length = 6) :
    pushWindow l v = l.tail ++ [v] := by
  unfold pushWindow
  rw [if_pos (by simp [h])]
  cases l with
  | nil => simp at h
  | cons x xs => simp

theorem growthSlope_of_lt {l : List ℚ} (h : l.length < 6) : growthSlope l = 0 := by
  unfold growthSlope
  rw [takeLast_of_le (by omega), if_neg (by omega)]

theorem growthSlope_of_six {l : List ℚ} (h : l.length = 6) : growthSlope l = polyfitSlope l := by
  unfold growthSlope
  rw [takeLast_of_le (by omega), if_pos h]

theorem initState_window_le (histValues : List ℚ) (m0 d0 : ℤ) :
    (initState histValues m0 d0).historical_ev.length ≤ 6
    ∧ (initState histValues m0 d0).cumulative_ev.length ≤ 6 := by
  simp only [initState, cumsum_length, takeLast_length]
  omega

theorem step_window_le (model : Model) (c : ℤ) (s : CountyState)
    (h : s.historical_ev.length ≤ 6 ∧ s.cumulative_ev.length ≤ 6) :
    (forecastStep model c s).post.historical_ev.length ≤ 6
    ∧ (forecastStep model c s).post.cumulative_ev.length ≤ 6 :=
  ⟨pushWindow_length_le _ h.1, pushWindow_length_le _ h.2⟩

theorem trace_invariant {P : CountyState → Prop} (model : Model) (c : ℤ)
    (hstep : ∀ s, P s → P (forecastStep model c s).post) :
    ∀ (n : ℕ) (s : CountyState), P s → ∀ e ∈ trace model c n s, P e.pre ∧ P e.post := by
  intro n
  induction n with
  | zero =>
      intro s _ e he
      simp [trace] at he
  | succ n ih =>
      intro s hs e he
      simp only [trace] at he
      rcases List.mem_cons.mp he with rfl | hmem
      · exact ⟨hs, hstep s hs⟩
      · exact ih (forecastStep model c s).post (hstep s hs) e hmem

theorem trace_step_src (model : Model) (c : ℤ) :
    ∀ (n : ℕ) (s : CountyState), ∀ e ∈ trace model c n s, e = forecastStep model c e.pre := by
  intro n
  induction n with
  | zero =>
      intro s e he
      simp [trace] at he
  | succ n ih =>
      intro s e he
      simp only [trace] at he
      rcases List.mem_cons.mp he with rfl | hmem
      · rfl
      · exact ih (forecastStep model c s).post e hmem

theorem runSteps_length (model : Model) (c : ℤ) :
    ∀ (n : ℕ) (s : CountyState), (runSteps model c n s).2.length = n := by
  intro n
  induction n with
  | zero => intro s; simp [runSteps]
  | succ n ih => intro s; simp [runSteps, ih]

/-- C2: after initialization and after each forecast step's push, the
trailing-values buffer (`historical_ev`) and the trailing-cumulative-sum
buffer (`cumulative_ev`) each have length at most 6. -/
theorem window_bound_invariant (histValues : List ℚ) (m0 d0 : ℤ) (model : Model)
    (county : ℤ) (n : ℕ) :
    ((initState histValues m0 d0).historical_ev.length ≤ 6
      ∧ (initState histValues m0 d0).cumulative_ev.length ≤ 6)
    ∧ ∀ e ∈ trace model county n (initState histValues m0 d0),
        (e.pre.historical_ev.length ≤ 6 ∧ e.pre.cumulative_ev.length ≤ 6)
        ∧ (e.post.historical_ev.length ≤ 6 ∧ e.post.cumulative_ev.length ≤ 6) := by
  refine ⟨initState_window_le histValues m0 d0, ?_⟩
  intro e he
  exact trace_invariant model county (fun s hs => step_window_le model county s hs) n
    (initState histValues m0 d0) (initState_window_le histValues m0 d0) e he

/-- Witness for C2 at a concrete run of one step from history `[1, 2, 3]`. -/
theorem window_bound_invariant_w :
    (forecastStep (fun _ => 20) 0 (initState [1, 2, 3] 0 0)
        ∈ trace (fun _ => 20) 0 1 (initState [1, 2, 3] 0 0))
    ∧ (((forecastStep (fun _ => 20) 0 (initState [1, 2, 3] 0 0)).pre.historical_ev.length ≤ 6
        ∧ (forecastStep (fun _ => 20) 0 (initState [1, 2, 3] 0 0)).pre.cumulative_ev.length ≤ 6)
      ∧ ((forecastStep (fun _ => 20) 0 (initState [1, 2, 3] 0 0)).post.historical_ev.length ≤ 6
        ∧ (forecastStep (fun _ => 20) 0
            (initState [1, 2, 3] 0 0)).post.cumulative_ev.length ≤ 6)) :=
  ⟨by simp [trace],
    (window_bound_invariant [1, 2, 3] 0 0 (fun _ => 20) 0 1).2 _ (by simp [trace])⟩

/-- C1: for a single entity whose history is `[10,12,11,13,14,15]` and a model
whose predict always returns 20, running the forecast with horizon 3 emits
exactly 3 forecast records, each with predicted value 20, with
`months_since_start` increasing by exactly 1 from one record to the next, and
leaves the trailing-values buffer equal to `[13,14,15,20,20,20]`. -/
theorem horizon_scenario (months0 date0 county : ℤ) :
    ((runSteps (fun _ => 20) county 3 (initState [10, 12, 11, 13, 14, 15] months0 date0)).2.length
        = 3)
    ∧ ((runSteps (fun _ => 20) county 3 (initState [10, 12, 11, 13, 14, 15] months0 date0)).2.map
        (fun r => r.predicted_value)) = [20, 20, 20]
    ∧ ((runSteps (fun _ => 20) county 3 (initState [10, 12, 11, 13, 14, 15] months0 date0)).2.map
        (fun r => r.months_since_start)) = [months0 + 1, months0 + 2, months0 + 3]
    ∧ (runSteps (fun _ => 20) county 3
        (initState [10, 12, 11, 13, 14, 15] months0 date0)).1.historical_ev
        = [13, 14, 15, 20, 20, 20] := by
  refine ⟨?_, ?_, ?_, ?_⟩ <;>
    norm_num [runSteps, forecastStep, initState, deriveFeatures, pushWindow,
      cumsum, cumsumFrom, takeLast, negIdx]
  omega

end EvForecast

namespace EvForecast

theorem exists_six (c : List ℚ) (h : c.length = 6) :
    ∃ a b x d e f, c = [a, b, x, d, e, f] := by
  rcases c with _ | ⟨a, c⟩
  · simp at h
  rcases c with _ | ⟨b, c⟩
  · simp at h
  rcases c with _ | ⟨x, c⟩
  · simp at h
  rcases c with _ | ⟨d, c⟩
  · simp at h
  rcases c with _ | ⟨e, c⟩
  · simp at h
  rcases c with _ | ⟨f, c⟩
  · simp at h
  rcases c with _ | ⟨g, c⟩
  · exact ⟨a, b, x, d, e, f, rfl⟩
  · simp at h

theorem polyfitSlope_six (a b x d e f : ℚ) :
    polyfitSlope [a, b, x, d, e, f]
      = (6 * (b + 2 * x + 3 * d + 4 * e + 5 * f)
          - 15 * (a + b + x + d + e + f)) / 105 := by
  have hr : List.range 6 = [0, 1, 2, 3, 4, 5] := by decide
  norm_num [polyfitSlope, hr]
  ring_nf

theorem olsSlopeSpec_six (a b x d e f : ℚ) :
    olsSlopeSpec [a, b, x, d, e, f]
      = (6 * (b + 2 * x + 3 * d + 4 * e + 5 * f)
          - 15 * (a + b + x + d + e + f)) / 105 := by
  have hr : List.range 6 = [0, 1, 2, 3, 4, 5] := by decide
  norm_num [olsSlopeSpec, hr]
  ring_nf

/-- C3: at every forecast step the growth-slope feature is 0 whenever the
trailing cumulative-sum buffer holds fewer than 6 points, and otherwise equals
the ordinary least-squares slope of the 6 buffered values against the index
sequence 0..5; in particular cumulative values `[0,1,2,3,4,5]` give slope 1. -/
theorem slope_gating (c : List ℚ) (hle : c.length ≤ 6) :
    (c.length < 6 → growthSlope c = 0)
    ∧ (c.length = 6 → growthSlope c = olsSlopeSpec c)
    ∧ growthSlope [(0 : ℚ), 1, 2, 3, 4, 5] = 1 := by
  refine ⟨fun h => growthSlope_of_lt h, fun h6 => ?_, ?_⟩
  · obtain ⟨a, b, x, d, e, f, rfl⟩ := exists_six c h6
    rw [growthSlope_of_six h6, polyfitSlope_six, olsSlopeSpec_six]
  · rw [growthSlope_of_six (by decide), polyfitSlope_six]
    norm_num

/-- Witness for C3 on the six-point buffer `[0,1,2,3,4,5]`. -/
theorem slope_gating_w :
    (([0, 1, 2, 3, 4, 5] : List ℚ).length ≤ 6
      ∧ ([0, 1, 2, 3, 4, 5] : List ℚ).length = 6)
    ∧ growthSlope [(0 : ℚ), 1, 2, 3, 4, 5] = olsSlopeSpec [0, 1, 2, 3, 4, 5] :=
  ⟨⟨by decide, by decide⟩,
    (slope_gating [0, 1, 2, 3, 4, 5] (by decide)).2.1 (by decide)⟩

/-- C4: `pct_change_1` is 0 whenever `lag2` is 0 and otherwise equals
`(lag1 − lag2)/lag2`; `pct_change_3` is 0 whenever `lag3` is 0 and otherwise
equals `(lag1 − lag3)/lag3`.  Both branches are total: deriving features never
divides by a zero denominator, the guard substitutes 0 instead. -/
theorem division_guard (h c : List ℚ) (m cty : ℤ) :
    ((negIdx h 2 = 0 → (deriveFeatures h c m cty).ev_total_pct_change_1 = 0)
      ∧ (negIdx h 2 ≠ 0 → (deriveFeatures h c m cty).ev_total_pct_change_1
          = (negIdx h 1 - negIdx h 2) / negIdx h 2))
    ∧ ((negIdx h 3 = 0 → (deriveFeatures h c m cty).ev_total_pct_change_3 = 0)
      ∧ (negIdx h 3 ≠ 0 → (deriveFeatures h c m cty).ev_total_pct_change_3
          = (negIdx h 1 - negIdx h 3) / negIdx h 3)) := by
  refine ⟨⟨fun h0 => ?_, fun h0 => ?_⟩, fun h0 => ?_, fun h0 => ?_⟩ <;>
    simp [deriveFeatures, h0]

/-- Witness for C4 on a buffer whose lag2 and lag3 are both 0. -/
theorem division_guard_w :
    (negIdx [5, 0, 0, 0] 2 = 0 ∧ negIdx [5, 0, 0, 0] 3 = 0)
    ∧ (deriveFeatures [5, 0, 0, 0] [1] 0 0).ev_total_pct_change_1 = 0
    ∧ (deriveFeatures [5, 0, 0, 0] [1] 0 0).ev_total_pct_change_3 = 0 :=
  ⟨⟨by decide, by decide⟩,
    (division_guard [5, 0, 0, 0] [1] 0 0).1.1 (by decide),
    (division_guard [5, 0, 0, 0] [1] 0 0).2.1 (by decide)⟩

end EvForecast

namespace EvForecast

theorem cumsumFrom_shift (l : List ℚ) :
    ∀ acc : ℚ, cumsumFrom acc l = (cumsumFrom 0 l).map (fun v => v + acc) := by
  induction l with
  | nil => intro acc; simp [cumsumFrom]
  | cons x xs ih =>
      intro acc
      simp only [cumsumFrom, List.map_cons, List.cons.injEq]
      refine ⟨by ring, ?_⟩
      rw [ih (acc + x), ih (0 + x), List.map_map]
      apply List.map_congr_left
      intro a _
      simp only [Function.comp_apply]
      ring

theorem cumsumFrom_append (l₁ l₂ : List ℚ) :
    ∀ acc : ℚ, cumsumFrom acc (l₁ ++ l₂)
      = cumsumFrom acc l₁ ++ cumsumFrom (acc + l₁.sum) l₂ := by
  induction l₁ with
  | nil => intro acc; simp [cumsumFrom]
  | cons x xs ih =>
      intro acc
      simp only [List.cons_append, cumsumFrom, List.sum_cons, List.cons.injEq, true_and,
        List.append_eq]
      rw [ih (acc + x), ← add_assoc]

theorem cumsum_append (l₁ l₂ : List ℚ) :
    cumsum (l₁ ++ l₂) = cumsum l₁ ++ (cumsum l₂).map (fun v => v + l₁.sum) := by
  unfold cumsum
  rw [cumsumFrom_append, zero_add, cumsumFrom_shift l₂ l₁.sum]

theorem takeLast_append_of_six (A B : List ℚ) (hB : B.length = 6) :
    takeLast 6 (A ++ B) = B := by
  unfold takeLast
  rw [List.length_append, hB]
  have hn : A.length + 6 - 6 = A.length := by omega
  rw [hn, List.drop_left]

/-- C9: the growth-slope computation is invariant under adding a constant to
every element of the 6-point cumulative buffer, and consequently initializing
the trailing cumulative buffer from the cumulative sum of only the last 6
historical values yields the same growth slope as taking the last 6 entries of
the full-history cumulative series used at training time. -/
theorem slope_shift_invariance :
    (∀ (c : List ℚ) (k : ℚ), c.length = 6 →
        growthSlope (c.map (fun v => v + k)) = growthSlope c)
    ∧ ∀ h : List ℚ, 6 ≤ h.length →
        growthSlope (takeLast 6 (cumsum h)) = growthSlope (cumsum (takeLast 6 h)) := by
  have part1 : ∀ (c : List ℚ) (k : ℚ), c.length = 6 →
      growthSlope (c.map (fun v => v + k)) = growthSlope c := by
    intro c k h6
    obtain ⟨a, b, x, d, e, f, rfl⟩ := exists_six c h6
    rw [growthSlope_of_six (by simp), growthSlope_of_six h6]
    simp only [List.map_cons, List.map_nil]
    rw [polyfitSlope_six, polyfitSlope_six]
    ring
  refine ⟨part1, ?_⟩
  intro h hlen
  have hsplit : h.take (h.length - 6) ++ takeLast 6 h = h := by
    unfold takeLast
    exact List.take_append_drop _ h
  have hlen6 : (takeLast 6 h).length = 6 := by
    rw [takeLast_length]
    omega
  have hlenB : ((cumsum (takeLast 6 h)).map
      (fun v => v + (h.take (h.length - 6)).sum)).length = 6 := by
    simp [cumsum_length, hlen6]
  have htl : takeLast 6 (cumsum (h.take (h.length - 6))
        ++ (cumsum (takeLast 6 h)).map (fun v => v + (h.take (h.length - 6)).sum))
      = (cumsum (takeLast 6 h)).map (fun v => v + (h.take (h.length - 6)).sum) :=
    takeLast_append_of_six _ _ hlenB
  conv_lhs => rw [← hsplit]
  rw [cumsum_append, htl]
  exact part1 (cumsum (takeLast 6 h)) (h.take (h.length - 6)).sum
    (by rw [cumsum_length, hlen6])

/-- Witness for C9: shift a concrete 6-point buffer by 7, and compare the
window-initialized slope with the training-time slope on a 7-point history. -/
theorem slope_shift_invariance_w :
    (([0, 1, 2, 3, 4, 5] : List ℚ).length = 6
      ∧ growthSlope (([0, 1, 2, 3, 4, 5] : List ℚ).map (fun v => v + 7))
          = growthSlope [(0 : ℚ), 1, 2, 3, 4, 5])
    ∧ (6 ≤ ([1, 1, 1, 1, 1, 1, 1] : List ℚ).length
      ∧ growthSlope (takeLast 6 (cumsum [1, 1, 1, 1, 1, 1, 1]))
          = growthSlope (cumsum (takeLast 6 [1, 1, 1, 1, 1, 1, 1]))) :=
  ⟨⟨by decide, slope_shift_invariance.1 [0, 1, 2, 3, 4, 5] 7 (by decide)⟩,
    ⟨by decide, slope_shift_invariance.2 [1, 1, 1, 1, 1, 1, 1] (by decide)⟩⟩

end EvForecast

namespace EvForecast

theorem addCumulative_length (rows : List CombinedRow) :
    ∀ acc : ℚ, (addCumulative acc rows).length = rows.length := by
  induction rows with
  | nil => intro acc; simp [addCumulative]
  | cons r rs ih => intro acc; simp [addCumulative, ih]

theorem addCumulative_map_value (rows : List CombinedRow) :
    ∀ acc : ℚ,
      (addCumulative acc rows).map (fun r => r.value) = rows.map (fun r => r.value) := by
  induction rows with
  | nil => intro acc; simp [addCumulative]
  | cons r rs ih => intro acc; simp [addCumulative, ih]

theorem addCumulative_map_date (rows : List CombinedRow) :
    ∀ acc : ℚ,
      (addCumulative acc rows).map (fun r => r.date) = rows.map (fun r => r.date) := by
  induction rows with
  | nil => intro acc; simp [addCumulative]
  | cons r rs ih => intro acc; simp [addCumulative, ih]

theorem addCumulative_get (rows : List CombinedRow) :
    ∀ (acc : ℚ) (i : ℕ) (hi : i < (addCumulative acc rows).length),
      ((addCumulative acc rows).get ⟨i, hi⟩).cumulative
        = acc + (((addCumulative acc rows).take (i + 1)).map (fun r => r.value)).sum := by
  induction rows with
  | nil => intro acc i hi; simp [addCumulative] at hi
  | cons r rs ih =>
      intro acc i hi
      cases i with
      | zero => simp [addCumulative]
      | succ i =>
          simp only [addCumulative, List.get_cons_succ, List.take_succ_cons, List.map_cons,
            List.sum_cons]
          rw [ih (acc + r.value) i (by simpa [addCumulative] using hi)]
          ring

/-- C7: in every assembled combined series, the cumulative total at position
`i` equals the sum of the value-or-prediction entries at all positions `j ≤ i`,
and the series' value column is exactly that of the date-sorted concatenation
of historical and forecast records. -/
theorem cumulative_consistency (hist : List HistPoint) (recs : List ForecastRecord)
    (i : ℕ) (hi : i < (assemble hist recs).length) :
    ((assemble hist recs).get ⟨i, hi⟩).cumulative
      = (((assemble hist recs).take (i + 1)).map (fun r => r.value)).sum
    ∧ (assemble hist recs).map (fun r => r.value)
      = (sortByDate (toRows hist recs)).map (fun r => r.value) := by
  constructor
  · have h0 := addCumulative_get (sortByDate (toRows hist recs)) 0 i
      (by simpa [assemble] using hi)
    simpa [assemble] using h0
  · simp [assemble, addCumulative_map_value]

/-- Witness for C7 on a one-row historical series with no forecasts. -/
theorem cumulative_consistency_w :
    0 < (assemble [⟨1, 5, 0⟩] []).length
    ∧ (((assemble [⟨1, 5, 0⟩] []).get
          ⟨0, by simp [assemble, toRows, sortByDate, addCumulative_length]⟩).cumulative
        = (((assemble [⟨1, 5, 0⟩] []).take 1).map (fun r => r.value)).sum
      ∧ (assemble [⟨1, 5, 0⟩] []).map (fun r => r.value)
        = (sortByDate (toRows [⟨1, 5, 0⟩] [])).map (fun r => r.value)) :=
  ⟨by simp [assemble, toRows, sortByDate, addCumulative_length],
    cumulative_consistency [⟨1, 5, 0⟩] [] 0
      (by simp [assemble, toRows, sortByDate, addCumulative_length])⟩

end EvForecast

namespace EvForecast

theorem le_foldl_max (l : List ℤ) :
    ∀ a : ℤ, (a ≤ l.foldl max a) ∧ ∀ x ∈ l, x ≤ l.foldl max a := by
  induction l with
  | nil => intro a; simp
  | cons y ys ih =>
      intro a
      simp only [List.foldl_cons]
      constructor
      · exact le_trans (le_max_left a y) (ih (max a y)).1
      · intro x hx
        rcases List.mem_cons.mp hx with rfl | hx
        · exact le_trans (le_max_right a x) (ih (max a x)).1
        · exact (ih (max a y)).2 x hx

theorem mem_le_listMaxD {l : List ℤ} {x : ℤ} (hx : x ∈ l) : x ≤ listMaxD l := by
  cases l with
  | nil => simp at hx
  | cons y ys =>
      rcases List.mem_cons.mp hx with rfl | hx
      · exact (le_foldl_max ys x).1
      · exact (le_foldl_max ys y).2 x hx

theorem runSteps_dates (model : Model) (c : ℤ) :
    ∀ (n : ℕ) (s : CountyState),
      (runSteps model c n s).2.map (fun r => r.date)
        = (List.range n).map (fun k : ℕ => s.date + ((k : ℤ) + 1)) := by
  intro n
  induction n with
  | zero => intro s; simp [runSteps]
  | succ n ih =>
      intro s
      simp only [runSteps, List.map_cons]
      rw [ih (forecastStep model c s).post, List.range_succ_eq_map, List.map_cons,
        List.map_map]
      have hrec : (forecastStep model c s).record.date = s.date + 1 := rfl
      have hpost : (forecastStep model c s).post.date = s.date + 1 := rfl
      rw [hrec, hpost]
      simp only [List.cons.injEq]
      refine ⟨by push_cast; ring, ?_⟩
      apply List.map_congr_left
      intro k _
      simp only [Function.comp_apply]
      push_cast
      ring

theorem runSteps_dates_pairwise (model : Model) (c : ℤ) (n : ℕ) (s : CountyState) :
    (runSteps model c n s).2.Pairwise (fun a b => a.date < b.date) := by
  have hmap : ((runSteps model c n s).2.map (fun r => r.date)).Pairwise (· < ·) := by
    rw [runSteps_dates]
    refine (List.pairwise_map).mpr ?_
    refine (List.pairwise_lt_range n).imp ?_
    intro a b hab
    omega
  exact (List.pairwise_map).mp hmap

theorem runSteps_dates_gt (model : Model) (c : ℤ) (n : ℕ) (s : CountyState) :
    ∀ r ∈ (runSteps model c n s).2, s.date < r.date := by
  intro r hr
  have hmem : r.date ∈ (runSteps model c n s).2.map (fun r => r.date) :=
    List.mem_map_of_mem _ hr
  rw [runSteps_dates] at hmem
  obtain ⟨k, _, hk⟩ := List.mem_map.mp hmem
  omega

/-- C8: for an entity whose historical months are strictly increasing, every
assembled combined series has strictly increasing calendar months between
consecutive entries. -/
theorem monotonic_calendar (hist : List HistPoint) (model : Model) (cty m0 : ℤ)
    (horizon : ℕ) (hmono : hist.Pairwise (fun a b => a.date < b.date)) :
    (assemble hist
        (runSteps model cty horizon
          (initState (hist.map (fun p => p.value)) m0 (maxDate hist))).2).Chain'
      (fun a b => a.date < b.date) := by
  set s0 := initState (hist.map (fun p => p.value)) m0 (maxDate hist) with hs0
  set recs := (runSteps model cty horizon s0).2 with hrecs
  have hs0date : s0.date = maxDate hist := rfl
  have hrows : (toRows hist recs).Pairwise (fun a b => a.date < b.date) := by
    unfold toRows
    rw [List.pairwise_append]
    refine ⟨?_, ?_, ?_⟩
    · exact (List.pairwise_map).mpr (hmono.imp (fun hab => hab))
    · exact (List.pairwise_map).mpr
        ((runSteps_dates_pairwise model cty horizon s0).imp (fun hab => hab))
    · intro a ha b hb
      obtain ⟨p, hp, rfl⟩ := List.mem_map.mp ha
      obtain ⟨r, hr, rfl⟩ := List.mem_map.mp hb
      have h1 : p.date ≤ maxDate hist :=
        mem_le_listMaxD (List.mem_map_of_mem _ hp)
      have h2 : s0.date < r.date := runSteps_dates_gt model cty horizon s0 r hr
      rw [hs0date] at h2
      show p.date < r.date
      omega
  have hsorted : sortByDate (toRows hist recs) = toRows hist recs := by
    unfold sortByDate
    exact List.mergeSort_of_sorted
      (hrows.imp (fun hab => decide_eq_true (le_of_lt hab)))
  have hdates : (assemble hist recs).map (fun r => r.date)
      = (toRows hist recs).map (fun r => r.date) := by
    unfold assemble
    rw [hsorted]
    exact addCumulative_map_date (toRows hist recs) 0
  have hpc : (assemble hist recs).Pairwise (fun a b => a.date < b.date) := by
    have hm : ((toRows hist recs).map (fun r => r.date)).Pairwise (· < ·) :=
      (List.pairwise_map).mpr (hrows.imp (fun hab => hab))
    rw [← hdates] at hm
    exact (List.pairwise_map).mp hm
  exact hpc.chain'

/-- Witness for C8 on a two-point strictly increasing history, horizon 2. -/
theorem monotonic_calendar_w :
    ([(⟨1, 5, 0⟩ : HistPoint), ⟨2, 6, 1⟩].Pairwise (fun a b => a.date < b.date))
    ∧ (assemble [⟨1, 5, 0⟩, ⟨2, 6, 1⟩]
        (runSteps (fun _ => 9) 0 2
          (initState ([(⟨1, 5, 0⟩ : HistPoint), ⟨2, 6, 1⟩].map (fun p => p.value)) 0
            (maxDate [⟨1, 5, 0⟩, ⟨2, 6, 1⟩]))).2).Chain'
      (fun a b => a.date < b.date) :=
  ⟨by decide, monotonic_calendar [⟨1, 5, 0⟩, ⟨2, 6, 1⟩] (fun _ => 9) 0 0 2 (by decide)⟩

end EvForecast

namespace EvForecast

theorem pushWindow_length_six {l : List ℚ} (v : ℚ) (h : l.length = 6) :
    (pushWindow l v).length = 6 := by
  rw [pushWindow_length v (by omega), h]
  omega

/-- C10: for every entity initialized with at least 6 historical values, both
trailing buffers have length exactly 6 before and after every forecast step,
each step appends one element and evicts exactly one, and the growth-slope
feature is computed by the OLS branch — never the 0 fallback — at every step. -/
theorem full_window_invariant (histValues : List ℚ) (m0 d0 : ℤ) (model : Model)
    (cty : ℤ) (n : ℕ) (hlen : 6 ≤ histValues.length) :
    ((initState histValues m0 d0).historical_ev.length = 6
      ∧ (initState histValues m0 d0).cumulative_ev.length = 6)
    ∧ ∀ e ∈ trace model cty n (initState histValues m0 d0),
        (e.pre.historical_ev.length = 6 ∧ e.pre.cumulative_ev.length = 6)
        ∧ (e.post.historical_ev.length = 6 ∧ e.post.cumulative_ev.length = 6)
        ∧ e.post.historical_ev = e.pre.historical_ev.tail ++ [e.record.predicted_value]
        ∧ e.features.ev_growth_slope = polyfitSlope e.pre.cumulative_ev := by
  have hinit : (initState histValues m0 d0).historical_ev.length = 6
      ∧ (initState histValues m0 d0).cumulative_ev.length = 6 := by
    constructor
    · show (takeLast 6 histValues).length = 6
      rw [takeLast_length]
      omega
    · show (cumsum (takeLast 6 histValues)).length = 6
      rw [cumsum_length, takeLast_length]
      omega
  refine ⟨hinit, ?_⟩
  intro e he
  have hP := trace_invariant
      (P := fun s => s.historical_ev.length = 6 ∧ s.cumulative_ev.length = 6)
      model cty (fun s hs => ⟨pushWindow_length_six _ hs.1, pushWindow_length_six _ hs.2⟩)
      n _ hinit e he
  have hsrc := trace_step_src model cty n _ e he
  refine ⟨hP.1, hP.2, ?_, ?_⟩
  · rw [hsrc]
    exact pushWindow_eq_of_six _ hP.1.1
  · rw [hsrc]
    exact growthSlope_of_six hP.1.2

/-- Witness for C10 at one step from the six-point history `[1,2,3,4,5,6]`. -/
theorem full_window_invariant_w :
    (6 ≤ ([1, 2, 3, 4, 5, 6] : List ℚ).length
      ∧ forecastStep (fun _ => 20) 0 (initState [1, 2, 3, 4, 5, 6] 0 0)
          ∈ trace (fun _ => 20) 0 1 (initState [1, 2, 3, 4, 5, 6] 0 0))
    ∧ (((forecastStep (fun _ => 20) 0
            (initState [1, 2, 3, 4, 5, 6] 0 0)).pre.historical_ev.length = 6
        ∧ (forecastStep (fun _ => 20) 0
            (initState [1, 2, 3, 4, 5, 6] 0 0)).pre.cumulative_ev.length = 6)
      ∧ ((forecastStep (fun _ => 20) 0
            (initState [1, 2, 3, 4, 5, 6] 0 0)).post.historical_ev.length = 6
        ∧ (forecastStep (fun _ => 20) 0
            (initState [1, 2, 3, 4, 5, 6] 0 0)).post.cumulative_ev.length = 6)
      ∧ (forecastStep (fun _ => 20) 0 (initState [1, 2, 3, 4, 5, 6] 0 0)).post.historical_ev
          = (forecastStep (fun _ => 20) 0
              (initState [1, 2, 3, 4, 5, 6] 0 0)).pre.historical_ev.tail
            ++ [(forecastStep (fun _ => 20) 0
                  (initState [1, 2, 3, 4, 5, 6] 0 0)).record.predicted_value]
      ∧ (forecastStep (fun _ => 20) 0
            (initState [1, 2, 3, 4, 5, 6] 0 0)).features.ev_growth_slope
          = polyfitSlope (forecastStep (fun _ => 20) 0
              (initState [1, 2, 3, 4, 5, 6] 0 0)).pre.cumulative_ev) :=
  ⟨⟨by decide, by simp [trace]⟩,
    (full_window_invariant [1, 2, 3, 4, 5, 6] 0 0 (fun _ => 20) 0 1 (by decide)).2 _
      (by simp [trace])⟩

/-- C5 counterexample: a batch request of entities 1, 2, 3 — entity 2 having
only 2 historical points — produces the outcome codes `[1, 1, 3, 3]`: no
outcome of any kind for entity 2 (it is silently skipped, not recorded as a
typed failure), and two identical outcomes for each succeeding entity (the
loop body re-runs a duplicated copy of the computation).  This contradicts
"exactly one outcome per requested entity". -/
theorem batch_outcome_cex :
    ((runMany (fun _ => 1) 1
        [⟨1, [⟨1, 5, 0⟩, ⟨2, 5, 1⟩, ⟨3, 5, 2⟩, ⟨4, 5, 3⟩, ⟨5, 5, 4⟩, ⟨6, 5, 5⟩]⟩,
         ⟨2, [⟨1, 5, 0⟩, ⟨2, 5, 1⟩]⟩,
         ⟨3, [⟨1, 5, 0⟩, ⟨2, 5, 1⟩, ⟨3, 5, 2⟩, ⟨4, 5, 3⟩, ⟨5, 5, 4⟩, ⟨6, 5, 5⟩]⟩]).map
      Prod.fst) = [1, 1, 3, 3] := by
  norm_num [runMany]

/-- C5 amended: the batch result contains outcomes exactly for the requested
entities having at least 6 historical rows — two identical successful outcomes
each, because the loop body duplicates the computation — and nothing at all
(no typed failure) for entities with fewer rows; each outcome is the entity's
own standalone pipeline result, so one entity's insufficient history never
affects any other entity's outcome. -/
theorem batch_outcome_amended (model : Model) (horizon : ℕ) (es : List CountyInput) :
    runMany model horizon es
      = es.flatMap (fun e =>
          if e.rows.length < 6 then []
          else [(e.code, combinedFor model horizon e),
                (e.code, combinedFor model horizon e)]) := by
  induction es with
  | nil => rfl
  | cons e es ih =>
      by_cases h : e.rows.length < 6 <;>
        simp [runMany, combinedFor, h, ih]

/-- C6 counterexample: an entity with 5 historical points — at least 3, fewer
than 6 — is skipped by the batch loop with no outcome, contradicting
"the forecast run proceeds (it is not an error and the entity is not
skipped)". -/
theorem proceed_three_to_five_cex :
    runMany (fun _ => 1) 1
      [⟨7, [⟨1, 2, 0⟩, ⟨2, 3, 1⟩, ⟨3, 4, 2⟩, ⟨4, 5, 3⟩, ⟨5, 6, 4⟩]⟩] = [] := by
  norm_num [runMany]

/-- C6 amended: the batch loop silently skips every entity with fewer than 6
historical rows, including those with 3 to 5 points (there is no
`InsufficientHistoryError` anywhere in the code).  The single-county stepping
machinery itself does proceed on a window of at least 3 values: it emits one
record per horizon step, the cumulative buffer grows by one point per step up
to the cap of 6, and the growth-slope feature is 0 at every step whose buffer
still holds fewer than 6 points. -/
theorem proceed_three_to_five_amended :
    (∀ (model : Model) (horizon : ℕ) (e : CountyInput),
        e.rows.length < 6 → runMany model horizon [e] = [])
    ∧ ∀ (hist : List ℚ) (m0 d0 cty : ℤ) (model : Model) (horizon : ℕ),
        3 ≤ hist.length → hist.length < 6 →
          (runSteps model cty horizon (initState hist m0 d0)).2.length = horizon
          ∧ ∀ e ∈ trace model cty horizon (initState hist m0 d0),
              (e.pre.cumulative_ev.length ≤ 6
                ∧ e.post.cumulative_ev.length = min (e.pre.cumulative_ev.length + 1) 6)
              ∧ (e.pre.cumulative_ev.length < 6 → e.features.ev_growth_slope = 0) := by
  constructor
  · intro model horizon e h
    simp [runMany, h]
  · intro hist m0 d0 cty model horizon h3 h6
    refine ⟨runSteps_length model cty horizon _, ?_⟩
    intro e he
    have hP := trace_invariant
        (P := fun s => s.historical_ev.length ≤ 6 ∧ s.cumulative_ev.length ≤ 6)
        model cty (fun s hs => step_window_le model cty s hs) horizon _
        (initState_window_le hist m0 d0) e he
    have hsrc := trace_step_src model cty horizon _ e he
    refine ⟨⟨hP.1.2, ?_⟩, ?_⟩
    · rw [hsrc]
      exact pushWindow_length _ hP.1.2
    · intro hlt
      rw [hsrc]
      exact growthSlope_of_lt hlt

/-- Witness for C6 amended: a 2-point entity is skipped by the batch loop, and
a 3-point history runs one full step in the single-county machinery. -/
theorem proceed_three_to_five_amended_w :
    (((⟨7, [⟨1, 2, 0⟩, ⟨2, 3, 1⟩]⟩ : CountyInput).rows.length < 6)
      ∧ runMany (fun _ => 1) 2 [⟨7, [⟨1, 2, 0⟩, ⟨2, 3, 1⟩]⟩] = [])
    ∧ ((3 ≤ ([1, 2, 3] : List ℚ).length ∧ ([1, 2, 3] : List ℚ).length < 6)
      ∧ (runSteps (fun _ => 9) 0 1 (initState [1, 2, 3] 0 0)).2.length = 1) :=
  ⟨⟨by decide, proceed_three_to_five_amended.1 (fun _ => 1) 2 _ (by decide)⟩,
    ⟨⟨by decide, by decide⟩,
      (proceed_three_to_five_amended.2 [1, 2, 3] 0 0 0 (fun _ => 9) 1 (by decide)
        (by decide)).1⟩⟩

end EvForecast
